import Mathlib

/-!
Shallow embedding of the process-context core of AtomVM
(`src/libAtomVM/context.c`): terms, monitor records, the per-process
context, and the operations `context_update_flags`,
`context_process_flush_monitor_signal`, `context_get_process_info`,
`context_size`, `context_monitors_handle_terminate`, `context_monitor`,
`context_demonitor`, and the teardown order of `context_destroy`.

Machine values are modelled with `Nat`/`Int`; external subsystems that are
not part of `context.c` (the global process table, the memory allocator,
the mailbox container) are modelled from the specification where noted.
-/

namespace AtomVM

/-- A runtime term: immediates (atoms as atom-table indices, small
integers, local process ids) and the boxed shapes `context.c` inspects
(references carrying 64-bit ref ticks, tuples). `invalid` is the
distinguished invalid sentinel (used for uninitialized tuple slots). -/
inductive Term where
  | atom (idx : Nat)
  | intVal (i : Int)
  | pid (id : Nat)
  | refTicks (ticks : Nat)
  | tuple (elems : List Term)
  | invalid

/-- Word comparison `t == a` where `a` is an atom immediate: true exactly
when `t` is the same atom. (In the C code atoms are tagged immediates, so
`==` on the words is equality of atom indices; no non-atom term has the
same word.) -/
def Term.eqAtom : Term → Term → Bool
  | .atom x, .atom y => x == y
  | _, _ => false

/-- Word comparison of two terms where the call sites only ever compare
immediates (process ids, atoms, small integers): equality of tag and
payload; `false` when either side is boxed (boxed word equality would be
pointer identity, which never coincides for separately built terms). -/
def Term.immEq : Term → Term → Bool
  | .atom x, .atom y => x == y
  | .pid x, .pid y => x == y
  | .intVal x, .intVal y => x == y
  | .invalid, .invalid => true
  | _, _ => false

def term_is_tuple : Term → Bool
  | .tuple _ => true
  | _ => false

def term_get_tuple_arity : Term → Nat
  | .tuple es => es.length
  | _ => 0

def term_get_tuple_element (t : Term) (i : Nat) : Term :=
  match t with
  | .tuple es => es.getD i .invalid
  | _ => .invalid

def term_is_reference : Term → Bool
  | .refTicks _ => true
  | _ => false

def term_to_ref_ticks : Term → Nat
  | .refTicks t => t
  | _ => 0

def term_from_ref_ticks (t : Nat) : Term := .refTicks t

def term_from_local_process_id (n : Nat) : Term := .pid n

def term_to_local_process_id : Term → Nat
  | .pid n => n
  | _ => 0

def term_from_int32 (n : Nat) : Term := .intVal (Int.ofNat n)

/- Distinct atom-table indices for the atoms `context.c` uses; distinct
names get distinct indices in the global atom table. -/
def NORMAL_ATOM : Term := .atom 0
def DOWN_ATOM : Term := .atom 1
def EXIT_ATOM : Term := .atom 2
def PORT_ATOM : Term := .atom 3
def PROCESS_ATOM : Term := .atom 4
def TRUE_ATOM : Term := .atom 5
def FALSE_ATOM : Term := .atom 6
def BADARG_ATOM : Term := .atom 7
def OUT_OF_MEMORY_ATOM : Term := .atom 8
def HEAP_SIZE_ATOM : Term := .atom 9
def STACK_SIZE_ATOM : Term := .atom 10
def MESSAGE_QUEUE_LEN_ATOM : Term := .atom 11
def MEMORY_ATOM : Term := .atom 12

/-- One monitor record of `ctx->monitors_head`:
`{monitor_pid, ref_ticks, linked}` (struct Monitor). -/
structure Monitor where
  monitor_pid : Term
  ref_ticks : Nat
  linked : Bool

/-- Modelled from the spec: flag bits of the atomic flag word
(`enum ContextFlags` lives in context.h, which is not in src/). The
claims only depend on `Trap` being a single bit and `NoFlags` being 0. -/
def NoFlags : Nat := 0
def Ready : Nat := 1
def Killed : Nat := 2
def Trap : Nat := 4
def WaitingTimeout : Nat := 8

/-- Mask `~Trap` as the 32-bit int complement used by
`context_update_flags(ctx, ~Trap, NoFlags)`. -/
def NOT_TRAP : Nat := 0xFFFFFFFF ^^^ Trap

/-- The per-process context: the fields of `struct Context` that
`context.c`'s operations read or write. The heap is abstracted to its
word counts (`heap_size` = `memory_heap_memory_size`, `heap_used` words
handed out by `term_alloc_tuple`, `stack_size` = `context_stack_size`);
the mailbox to its list of messages; `native_handler` and
`platform_data` to whether the pointer is non-null; `timer_pending` to
whether the timer list is non-empty. `mem_ok` — modelled from the spec:
whether `memory_ensure_free` (memory.c, not in src/) succeeds for this
process. -/
structure Context where
  process_id : Nat
  heap_size : Nat
  heap_used : Nat
  stack_size : Nat
  mailbox : List Term
  monitors : List Monitor
  exit_reason : Term
  trap_exit : Bool
  native_handler : Bool
  flags : Nat
  x0 : Term
  platform_data : Bool
  timer_pending : Bool
  mem_ok : Bool

/-- Operation `context_update_flags(ctx, mask, value)`:
`ctx->flags = (ctx->flags & mask) | value` (the non-SMP branch; the SMP
branch is the same update realised by a compare-and-swap loop). -/
def context_update_flags (ctx : Context) (mask value : Nat) : Context :=
  { ctx with flags := (ctx.flags &&& mask) ||| value }

/-- The predicate of the flush loop of
`context_process_flush_monitor_signal`: the message is a tuple of arity
5 whose element 0 is `DOWN_ATOM` and whose element 1 is a reference with
the given ref ticks. -/
def flushMatches (ref_ticks : Nat) (msg : Term) : Bool :=
  term_is_tuple msg
    && (term_get_tuple_arity msg == 5)
    && Term.eqAtom (term_get_tuple_element msg 0) DOWN_ATOM
    && term_is_reference (term_get_tuple_element msg 1)
    && (term_to_ref_ticks (term_get_tuple_element msg 1) == ref_ticks)

/-- The peek/remove/next walk over the mailbox in
`context_process_flush_monitor_signal`: matching messages are removed
(and `result` is set to `!info` at each removal), the rest are kept in
order. Returns the remaining mailbox and the final `result`. -/
def flush_loop (ref_ticks : Nat) (info : Bool) : List Term → Bool → List Term × Bool
  | [], result => ([], result)
  | msg :: rest, result =>
    if flushMatches ref_ticks msg then
      flush_loop ref_ticks info rest (!info)
    else
      let p := flush_loop ref_ticks info rest result
      (msg :: p.1, p.2)

/-- Operation `context_process_flush_monitor_signal(ctx, ref_ticks, info)`: clear
`Trap` (`context_update_flags(ctx, ~Trap, NoFlags)`), walk the mailbox
removing every matching DOWN tuple, then set `x[0]` to `TRUE_ATOM` or
`FALSE_ATOM` from the final `result`. -/
def context_process_flush_monitor_signal (ctx : Context) (ref_ticks : Nat) (info : Bool) : Context :=
  let c := context_update_flags ctx NOT_TRAP NoFlags
  let p := flush_loop ref_ticks info c.mailbox true
  { c with mailbox := p.1, x0 := if p.2 then TRUE_ATOM else FALSE_ATOM }

/-- Macro `TUPLE_SIZE(n)`: words of heap a tuple of arity `n` occupies
(header word plus one word per element). -/
def TUPLE_SIZE (n : Nat) : Nat := n + 1

/-- Modelled from the spec: `memory_ensure_free(ctx, words)` (memory.c is
not in src/) guarantees free space, running GC if needed, and fails with
`OUT_OF_MEMORY` when memory cannot be obtained; whether it succeeds for
this process is the `mem_ok` oracle, and on failure the heap is left as
it was. -/
def memory_ensure_free (ctx : Context) (_words : Nat) : Option Context :=
  if ctx.mem_ok then some ctx else none

/-- Allocation `term_alloc_tuple(n, &ctx->heap)` as its heap effect: `TUPLE_SIZE n`
words are handed out from the heap. -/
def alloc_tuple_words (n : Nat) (ctx : Context) : Context :=
  { ctx with heap_used := ctx.heap_used + TUPLE_SIZE n }

/-- Observability `context_message_queue_len(ctx) = mailbox_len(&ctx->mailbox)`:
the number of messages in the mailbox. -/
def context_message_queue_len (ctx : Context) : Nat :=
  ctx.mailbox.length

/-- Accessor `memory_heap_memory_size(&ctx->heap)`: total size of the heap in
words (abstracted to the `heap_size` field). -/
def memory_heap_memory_size (ctx : Context) : Nat := ctx.heap_size

/-- Accessor `context_stack_size(ctx)`: stack size in words (abstracted to the
`stack_size` field). -/
def context_stack_size (ctx : Context) : Nat := ctx.stack_size

/-- Platform constants and externals of `context_size`:
`sizeof(Context)`, `BYTES_PER_TERM` (= TERM_BITS / 8), and
`mailbox_size` (mailbox.c is not in src/; modelled from the spec as an
observability function of the mailbox contents). -/
structure Platform where
  sizeof_Context : Nat
  bytes_per_term : Nat
  mailbox_size_fn : List Term → Nat

/-- Observability `context_size(ctx) = sizeof(Context) + mailbox_size(&ctx->mailbox)
+ memory_heap_memory_size(&ctx->heap) * BYTES_PER_TERM`. -/
def context_size (plat : Platform) (ctx : Context) : Nat :=
  plat.sizeof_Context
    + plat.mailbox_size_fn ctx.mailbox
    + memory_heap_memory_size ctx * plat.bytes_per_term

/-- Unsigned 64-bit subtraction (`unsigned long` on the 64-bit target),
used for `memory_heap_memory_size(&ctx->heap) - context_stack_size(ctx)`. -/
def usub64 (a b : Nat) : Nat := (2 ^ 64 + a - b) % 2 ^ 64

/-- Operation `context_get_process_info(ctx, out, atom_key)`: reserve 3 words
(failing with `OUT_OF_MEMORY_ATOM` and `false`), allocate a 2-tuple,
then switch on the key word, filling the tuple with `{key, value}` and
returning `true`, or returning `false` with `BADARG_ATOM` on an unknown
key. Result: `(return value, *out, ctx after its heap effects)`. -/
def context_get_process_info (plat : Platform) (ctx : Context) (atom_key : Term) :
    Bool × Term × Context :=
  match memory_ensure_free ctx 3 with
  | none => (false, OUT_OF_MEMORY_ATOM, ctx)
  | some c0 =>
    let c1 := alloc_tuple_words 2 c0
    if Term.eqAtom atom_key HEAP_SIZE_ATOM then
      (true, .tuple [HEAP_SIZE_ATOM,
        term_from_int32 (usub64 (memory_heap_memory_size c1) (context_stack_size c1))], c1)
    else if Term.eqAtom atom_key STACK_SIZE_ATOM then
      (true, .tuple [STACK_SIZE_ATOM, term_from_int32 (context_stack_size c1)], c1)
    else if Term.eqAtom atom_key MESSAGE_QUEUE_LEN_ATOM then
      (true, .tuple [MESSAGE_QUEUE_LEN_ATOM, term_from_int32 (context_message_queue_len c1)], c1)
    else if Term.eqAtom atom_key MEMORY_ATOM then
      (true, .tuple [MEMORY_ATOM, term_from_int32 (context_size plat c1)], c1)
    else
      (false, BADARG_ATOM, c1)

/-- Whether the key is one of the four recognised process-info keys. -/
def isInfoKey (atom_key : Term) : Bool :=
  Term.eqAtom atom_key HEAP_SIZE_ATOM
    || Term.eqAtom atom_key STACK_SIZE_ATOM
    || Term.eqAtom atom_key MESSAGE_QUEUE_LEN_ATOM
    || Term.eqAtom atom_key MEMORY_ATOM

/-- What the termination broadcast knows about a peer it finds in the
process table. Modelled from the spec:
`globalcontext_get_process_lock(pid)` (globalcontext.c is not in src/)
returns the peer context or null if gone; the broadcast reads the
peer's `trap_exit`. -/
structure Peer where
  trap_exit : Bool

/-- A process table: local process id to live peer, `none` if gone. -/
def ProcTable : Type := Nat → Option Peer

/-- An observable effect of the termination broadcast on a peer:
an ordinary message enqueued into the peer's mailbox (`mailbox_send`)
or a kill signal (`mailbox_send_term_signal(target, KillSignal, r)`). -/
inductive Effect where
  | message (peer_pid : Nat) (msg : Term)
  | killSignal (peer_pid : Nat) (reason : Term)

/-- The body of the `MUTABLE_LIST_FOR_EACH` loop of
`context_monitors_handle_terminate` for a single monitor record: look up
the peer (`none` ⇒ the record is dropped with no effect); for a link,
if `ctx->exit_reason != NORMAL_ATOM || target->trap_exit`, deliver
`{EXIT, self, reason}` when the peer traps exits and a kill signal
otherwise; for a monitor, deliver `{DOWN, ref, port|process, self,
reason}`. (Allocation failure for the tuples aborts the whole VM, so no
post-state exists for it.) -/
def monitorEffect (procs : ProcTable) (ctx : Context) (m : Monitor) : Option Effect :=
  let local_process_id := term_to_local_process_id m.monitor_pid
  match procs local_process_id with
  | none => none
  | some target =>
    if m.linked && (!(Term.eqAtom ctx.exit_reason NORMAL_ATOM) || target.trap_exit) then
      if target.trap_exit then
        some (.message local_process_id (.tuple [EXIT_ATOM,
          term_from_local_process_id ctx.process_id, ctx.exit_reason]))
      else
        some (.killSignal local_process_id ctx.exit_reason)
    else if !m.linked then
      some (.message local_process_id (.tuple [DOWN_ATOM,
        term_from_ref_ticks m.ref_ticks,
        (if ctx.native_handler then PORT_ATOM else PROCESS_ATOM),
        term_from_local_process_id ctx.process_id, ctx.exit_reason]))
    else
      none

/-- The effects of the loop of `context_monitors_handle_terminate` over a
given list of monitor records, in list order. -/
def handleTerminateList (procs : ProcTable) (ctx : Context) (ms : List Monitor) : List Effect :=
  ms.filterMap (monitorEffect procs ctx)

/-- Operation `context_monitors_handle_terminate(ctx)`: walk `ctx->monitors_head`
in order, producing the per-record effects (each record is freed as it
is processed). -/
def context_monitors_handle_terminate (procs : ProcTable) (ctx : Context) : List Effect :=
  handleTerminateList procs ctx ctx.monitors

/-- Modelled from the spec: `globalcontext_get_ref_ticks` (globalcontext.c
is not in src/) atomically increments the monotonic 64-bit ref counter
and returns the new value. Result: `(ref_ticks, new counter)`. -/
def globalcontext_get_ref_ticks (counter : Nat) : Nat × Nat :=
  (counter + 1, counter + 1)

/-- Operation `context_monitor(ctx, monitor_pid, linked)`: mint a ref, then
`malloc` a monitor record (`alloc_ok` oracle: whether `malloc` returns
non-null); on failure return 0 leaving the list unchanged; on success
append `{monitor_pid, ref_ticks, linked}` and return `ref_ticks`.
Result: `(returned ref_ticks, ctx after, new ref counter)`. -/
def context_monitor (ctx : Context) (counter : Nat) (monitor_pid : Term) (linked : Bool)
    (alloc_ok : Bool) : Nat × Context × Nat :=
  let p := globalcontext_get_ref_ticks counter
  if alloc_ok then
    (p.1, { ctx with monitors := ctx.monitors ++ [⟨monitor_pid, p.1, linked⟩] }, p.2)
  else
    (0, ctx, p.2)

/-- The match condition of `context_demonitor`:
`monitor->monitor_pid == monitor_pid && monitor->linked == linked`
(word comparison of the pid immediates). -/
def monitorMatches (monitor_pid : Term) (linked : Bool) (m : Monitor) : Bool :=
  Term.immEq m.monitor_pid monitor_pid && (m.linked == linked)

/-- The `LIST_FOR_EACH` loop of `context_demonitor`: remove the first
record whose `monitor_pid` and `linked` both match; leave the list
unchanged when none matches. -/
def demonitor_list (monitor_pid : Term) (linked : Bool) : List Monitor → List Monitor
  | [] => []
  | m :: rest =>
    if monitorMatches monitor_pid linked m then
      rest
    else
      m :: demonitor_list monitor_pid linked rest

/-- Operation `context_demonitor(ctx, monitor_pid, linked)`. -/
def context_demonitor (ctx : Context) (monitor_pid : Term) (linked : Bool) : Context :=
  { ctx with monitors := demonitor_list monitor_pid linked ctx.monitors }

/-- The teardown actions of `context_destroy`, in program order. -/
inductive DestroyStep where
  | processTableRemove
  | unregisterName
  | monitorsTerminate
  | mailboxDestroy
  | freeFloatRegisters
  | heapFree
  | dictionaryDestroy
  | cancelTimeout
  | platformDataFree
  | contextFree
  deriving DecidableEq

/-- Operation `context_destroy(ctx)` as the sequence of teardown actions it
performs: remove from the process table, unregister the name, run the
termination broadcast, destroy the mailbox, free the float registers,
destroy the heap, destroy the dictionary, cancel a pending timeout when
the timer list is non-empty, free `platform_data` when non-null, and
free the Context record. -/
def context_destroy_trace (ctx : Context) : List DestroyStep :=
  [.processTableRemove, .unregisterName, .monitorsTerminate, .mailboxDestroy,
    .freeFloatRegisters, .heapFree, .dictionaryDestroy]
  ++ (if ctx.timer_pending then [.cancelTimeout] else [])
  ++ (if ctx.platform_data then [.platformDataFree] else [])
  ++ [.contextFree]


/- Shared concrete instances used to instantiate the theorems. -/

/-- A concrete context used to instantiate the theorems on explicit
inputs. -/
def testCtx : Context :=
  { process_id := 1, heap_size := 16, heap_used := 0, stack_size := 4,
    mailbox := [], monitors := [], exit_reason := NORMAL_ATOM,
    trap_exit := false, native_handler := false, flags := 0,
    x0 := Term.invalid, platform_data := true, timer_pending := false,
    mem_ok := true }

/-- A concrete platform description used to instantiate the theorems. -/
def testPlat : Platform :=
  { sizeof_Context := 100, bytes_per_term := 8,
    mailbox_size_fn := fun ms => 16 * ms.length }

/- Helper lemmas. -/

theorem flush_loop_mailbox (r : Nat) (i : Bool) (ms : List Term) (b : Bool) :
    (flush_loop r i ms b).1 = ms.filter (fun m => !flushMatches r m) := by
  induction ms generalizing b with
  | nil => rfl
  | cons m rest ih =>
    by_cases h : flushMatches r m = true
    · simp [flush_loop, List.filter, h, ih]
    · simp [flush_loop, List.filter, h, ih]

theorem flush_loop_result (r : Nat) (i : Bool) (ms : List Term) (b : Bool) :
    (flush_loop r i ms b).2 = if ms.any (flushMatches r) then !i else b := by
  induction ms generalizing b with
  | nil => rfl
  | cons m rest ih =>
    by_cases h : flushMatches r m = true
    · simp [flush_loop, h, ih]
    · simp [flush_loop, h, ih]

/- Claims. -/

/-- C8: after `context_update_flags(ctx, mask, value)` the flag word
equals `(old_flags & mask) | value`, and every other field of the
context is unchanged. -/
theorem context_update_flags_spec (ctx : Context) (mask value : Nat) :
    (context_update_flags ctx mask value).flags = (ctx.flags &&& mask) ||| value
    ∧ (context_update_flags ctx mask value).process_id = ctx.process_id
    ∧ (context_update_flags ctx mask value).heap_size = ctx.heap_size
    ∧ (context_update_flags ctx mask value).heap_used = ctx.heap_used
    ∧ (context_update_flags ctx mask value).stack_size = ctx.stack_size
    ∧ (context_update_flags ctx mask value).mailbox = ctx.mailbox
    ∧ (context_update_flags ctx mask value).monitors = ctx.monitors
    ∧ (context_update_flags ctx mask value).exit_reason = ctx.exit_reason
    ∧ (context_update_flags ctx mask value).trap_exit = ctx.trap_exit
    ∧ (context_update_flags ctx mask value).native_handler = ctx.native_handler
    ∧ (context_update_flags ctx mask value).x0 = ctx.x0
    ∧ (context_update_flags ctx mask value).platform_data = ctx.platform_data
    ∧ (context_update_flags ctx mask value).timer_pending = ctx.timer_pending
    ∧ (context_update_flags ctx mask value).mem_ok = ctx.mem_ok :=
  ⟨rfl, rfl, rfl, rfl, rfl, rfl, rfl, rfl, rfl, rfl, rfl, rfl, rfl, rfl⟩

/-- C9: when the allocation of the monitor record fails,
`context_monitor` returns 0 and leaves the monitor list (indeed the
whole context) unchanged while the global ref counter has advanced; on
success the returned value is the `ref_ticks` field stored in the newly
appended record. -/
theorem context_monitor_spec (ctx : Context) (counter : Nat) (monitor_pid : Term)
    (linked : Bool) :
    context_monitor ctx counter monitor_pid linked false = (0, ctx, counter + 1)
    ∧ (context_monitor ctx counter monitor_pid linked true).2.1.monitors
        = ctx.monitors
          ++ [⟨monitor_pid, (context_monitor ctx counter monitor_pid linked true).1, linked⟩]
    ∧ (context_monitor ctx counter monitor_pid linked true).2.2 = counter + 1 :=
  ⟨rfl, rfl, rfl⟩

/-- C6: the teardown steps of `context_destroy` occur in the order:
process-table removal, name unregistration, termination broadcast,
mailbox destruction, heap free, platform-data free (when present, and
after the table removal), and the Context record is freed last. -/
theorem context_destroy_trace_order (ctx : Context) :
    List.Sublist
      ([DestroyStep.processTableRemove, DestroyStep.unregisterName,
        DestroyStep.monitorsTerminate, DestroyStep.mailboxDestroy, DestroyStep.heapFree]
        ++ (if ctx.platform_data then [DestroyStep.platformDataFree] else [])
        ++ [DestroyStep.contextFree])
      (context_destroy_trace ctx)
    ∧ (context_destroy_trace ctx).getLast? = some DestroyStep.contextFree := by
  cases hp : ctx.platform_data <;> cases ht : ctx.timer_pending <;>
    refine ⟨?_, ?_⟩ <;> (simp [context_destroy_trace, hp, ht]; try decide)

/-- C3: processing a FlushMonitor(ref_ticks, info) signal clears the
`Trap` flag, removes from the mailbox exactly the messages that are
5-tuples with element 0 the DOWN atom and element 1 a reference with the
signal's ref ticks, and sets `x[0]` to the true atom, except that it is
the false atom when `info` was requested and at least one message was
removed; all other context fields are untouched. -/
theorem context_process_flush_monitor_signal_spec (ctx : Context) (r : Nat) (info : Bool) :
    (context_process_flush_monitor_signal ctx r info).flags = ctx.flags &&& NOT_TRAP
    ∧ (context_process_flush_monitor_signal ctx r info).mailbox
        = ctx.mailbox.filter (fun m => !flushMatches r m)
    ∧ (context_process_flush_monitor_signal ctx r info).x0
        = (if info && ctx.mailbox.any (flushMatches r) then FALSE_ATOM else TRUE_ATOM)
    ∧ (context_process_flush_monitor_signal ctx r info).monitors = ctx.monitors
    ∧ (context_process_flush_monitor_signal ctx r info).exit_reason = ctx.exit_reason := by
  refine ⟨?_, ?_, ?_, rfl, rfl⟩
  · show (ctx.flags &&& NOT_TRAP) ||| NoFlags = ctx.flags &&& NOT_TRAP
    simp [NoFlags]
  · show (flush_loop r info ctx.mailbox true).1 = _
    exact flush_loop_mailbox r info ctx.mailbox true
  · show (if (flush_loop r info ctx.mailbox true).2 then TRUE_ATOM else FALSE_ATOM) = _
    rw [flush_loop_result]
    cases h : ctx.mailbox.any (flushMatches r) <;> cases info <;> simp

theorem demonitor_list_of_countP_zero (p : Term) (l : Bool) (ms : List Monitor)
    (h : ms.countP (monitorMatches p l) = 0) : demonitor_list p l ms = ms := by
  induction ms with
  | nil => rfl
  | cons m rest ih =>
    rw [List.countP_cons] at h
    cases hm : monitorMatches p l m with
    | true => simp [hm] at h
    | false =>
      simp only [hm, if_false] at h
      simp [demonitor_list, hm, ih (by omega)]

/-- C5 counterexample: on a monitor list holding two records for the
same `(peer_pid, linked)` pair (two monitors of the same process, with
distinct refs), calling `context_demonitor` twice removes both records
while calling it once removes only the first, so the claimed
idempotence fails. -/
theorem context_demonitor_twice_ne_once :
    ¬ (context_demonitor (context_demonitor
          { testCtx with monitors := [⟨Term.pid 2, 10, false⟩, ⟨Term.pid 2, 11, false⟩] }
          (Term.pid 2) false) (Term.pid 2) false
        = context_demonitor
          { testCtx with monitors := [⟨Term.pid 2, 10, false⟩, ⟨Term.pid 2, 11, false⟩] }
          (Term.pid 2) false) := by
  intro h
  have h2 := congrArg (fun c => c.monitors.length) h
  simp [context_demonitor, demonitor_list, monitorMatches, Term.immEq, testCtx] at h2

/-- C5 (amended): for every monitor list in which at most one record
matches `(peer_pid, linked)`, calling `context_demonitor` twice in a row
leaves the monitor list in the same state as calling it once. -/
theorem context_demonitor_idem (ctx : Context) (monitor_pid : Term) (linked : Bool)
    (h : ctx.monitors.countP (monitorMatches monitor_pid linked) <= 1) :
    context_demonitor (context_demonitor ctx monitor_pid linked) monitor_pid linked
      = context_demonitor ctx monitor_pid linked := by
  have hs : forall (ms : List Monitor),
      ms.countP (monitorMatches monitor_pid linked) <= 1 ->
      demonitor_list monitor_pid linked (demonitor_list monitor_pid linked ms)
        = demonitor_list monitor_pid linked ms := by
    intro ms
    induction ms with
    | nil => intro; rfl
    | cons m rest ih =>
      intro hle
      rw [List.countP_cons] at hle
      cases hm : monitorMatches monitor_pid linked m with
      | true =>
        simp only [hm, if_true] at hle
        simp [demonitor_list, hm,
          demonitor_list_of_countP_zero monitor_pid linked rest (by omega)]
      | false =>
        simp only [hm, if_false] at hle
        simp [demonitor_list, hm, ih (by omega)]
  simp [context_demonitor, hs ctx.monitors h]

/-- C5 witness: a concrete list with a single matching record, on which
the two calls agree. -/
theorem context_demonitor_idem_witness :
    context_demonitor (context_demonitor
        { testCtx with monitors := [⟨Term.pid 2, 10, false⟩, ⟨Term.pid 3, 11, false⟩] }
        (Term.pid 2) false) (Term.pid 2) false
      = context_demonitor
        { testCtx with monitors := [⟨Term.pid 2, 10, false⟩, ⟨Term.pid 3, 11, false⟩] }
        (Term.pid 2) false :=
  context_demonitor_idem
    { testCtx with monitors := [⟨Term.pid 2, 10, false⟩, ⟨Term.pid 3, 11, false⟩] }
    (Term.pid 2) false (by decide)

/- Concrete process tables for instantiating the broadcast theorems. -/

/-- A process table holding one trapping peer at local process id 2. -/
def testProcsTrap : ProcTable := fun n => if n == 2 then some ⟨true⟩ else none

/-- A process table holding one non-trapping peer at local process id 2. -/
def testProcsNoTrap : ProcTable := fun n => if n == 2 then some ⟨false⟩ else none

/-- An empty process table: every peer is gone. -/
def testProcsEmpty : ProcTable := fun _ => none

/-- C1: during the termination broadcast, a linked monitor record whose
peer is alive yields: nothing when the exit reason is the NORMAL atom
and the peer does not trap exits; the message `{EXIT, self_pid,
exit_reason}` into the peer's mailbox when the peer traps exits; and a
kill signal carrying `exit_reason` otherwise — with the records around
it processed as usual. -/
theorem handle_terminate_linked (procs : ProcTable) (ctx : Context)
    (pre post : List Monitor) (m : Monitor) (target : Peer)
    (hmon : ctx.monitors = pre ++ m :: post)
    (hl : m.linked = true)
    (hp : procs (term_to_local_process_id m.monitor_pid) = some target) :
    (Term.eqAtom ctx.exit_reason NORMAL_ATOM = true → target.trap_exit = false →
      context_monitors_handle_terminate procs ctx
        = handleTerminateList procs ctx pre ++ handleTerminateList procs ctx post)
    ∧ (target.trap_exit = true →
      context_monitors_handle_terminate procs ctx
        = handleTerminateList procs ctx pre
          ++ Effect.message (term_to_local_process_id m.monitor_pid)
               (Term.tuple [EXIT_ATOM, term_from_local_process_id ctx.process_id,
                 ctx.exit_reason])
            :: handleTerminateList procs ctx post)
    ∧ (Term.eqAtom ctx.exit_reason NORMAL_ATOM = false → target.trap_exit = false →
      context_monitors_handle_terminate procs ctx
        = handleTerminateList procs ctx pre
          ++ Effect.killSignal (term_to_local_process_id m.monitor_pid) ctx.exit_reason
            :: handleTerminateList procs ctx post) := by
  unfold context_monitors_handle_terminate
  rw [hmon]
  unfold handleTerminateList
  rw [List.filterMap_append]
  refine ⟨fun hn htr => ?_, fun htr => ?_, fun hn htr => ?_⟩
  · simp [List.filterMap_cons, monitorEffect, hp, hl, hn, htr]
  · simp [List.filterMap_cons, monitorEffect, hp, hl, htr]
  · simp [List.filterMap_cons, monitorEffect, hp, hl, hn, htr]

/-- C1 witness: a linked record on a dying process with a non-NORMAL
reason and a non-trapping live peer produces exactly the kill signal. -/
theorem handle_terminate_linked_witness :
    context_monitors_handle_terminate testProcsNoTrap
        { testCtx with monitors := [⟨Term.pid 2, 0, true⟩], exit_reason := Term.atom 13 }
      = [Effect.killSignal 2 (Term.atom 13)] := by
  have h := (handle_terminate_linked testProcsNoTrap
      { testCtx with monitors := [⟨Term.pid 2, 0, true⟩], exit_reason := Term.atom 13 }
      [] [] ⟨Term.pid 2, 0, true⟩ ⟨false⟩ rfl rfl rfl).2.2 rfl rfl
  exact h.trans rfl

/-- C2: during the termination broadcast, a non-linked monitor record
whose peer is alive contributes exactly one message into the peer's
mailbox, the 5-tuple `{DOWN, ref, kind, self_pid, exit_reason}` with
`ref` built from the record's stored `ref_ticks` and `kind` the `port`
atom when `native_handler` is non-null and the `process` atom
otherwise. -/
theorem handle_terminate_monitor_down (procs : ProcTable) (ctx : Context)
    (pre post : List Monitor) (m : Monitor) (target : Peer)
    (hmon : ctx.monitors = pre ++ m :: post)
    (hl : m.linked = false)
    (hp : procs (term_to_local_process_id m.monitor_pid) = some target) :
    context_monitors_handle_terminate procs ctx
      = handleTerminateList procs ctx pre
        ++ Effect.message (term_to_local_process_id m.monitor_pid)
             (Term.tuple [DOWN_ATOM, term_from_ref_ticks m.ref_ticks,
               (if ctx.native_handler then PORT_ATOM else PROCESS_ATOM),
               term_from_local_process_id ctx.process_id, ctx.exit_reason])
          :: handleTerminateList procs ctx post := by
  unfold context_monitors_handle_terminate
  rw [hmon]
  unfold handleTerminateList
  rw [List.filterMap_append]
  simp [List.filterMap_cons, monitorEffect, hp, hl]

/-- C2 witness: one monitor record with ref ticks 42 on a dying process
with a live trapping peer yields exactly the one DOWN 5-tuple. -/
theorem handle_terminate_monitor_down_witness :
    context_monitors_handle_terminate testProcsTrap
        { testCtx with monitors := [⟨Term.pid 2, 42, false⟩], exit_reason := Term.atom 13 }
      = [Effect.message 2 (Term.tuple [DOWN_ATOM, Term.refTicks 42, PROCESS_ATOM,
          Term.pid 1, Term.atom 13])] := by
  have h := handle_terminate_monitor_down testProcsTrap
      { testCtx with monitors := [⟨Term.pid 2, 42, false⟩], exit_reason := Term.atom 13 }
      [] [] ⟨Term.pid 2, 42, false⟩ ⟨true⟩ rfl rfl rfl
  exact h.trans rfl

/-- C7: during the termination broadcast, a monitor record whose peer is
not found in the process table is dropped without any message or
signal, and the remaining records are still processed. -/
theorem handle_terminate_peer_gone (procs : ProcTable) (ctx : Context)
    (pre post : List Monitor) (m : Monitor)
    (hmon : ctx.monitors = pre ++ m :: post)
    (hp : procs (term_to_local_process_id m.monitor_pid) = none) :
    context_monitors_handle_terminate procs ctx
      = handleTerminateList procs ctx pre ++ handleTerminateList procs ctx post := by
  unfold context_monitors_handle_terminate
  rw [hmon]
  unfold handleTerminateList
  rw [List.filterMap_append]
  simp [List.filterMap_cons, monitorEffect, hp]

/-- C7 witness: with the middle record's peer gone, that record
contributes nothing while its neighbours are still processed. -/
theorem handle_terminate_peer_gone_witness :
    context_monitors_handle_terminate testProcsNoTrap
        { testCtx with
            monitors := [⟨Term.pid 2, 41, false⟩, ⟨Term.pid 9, 42, false⟩,
              ⟨Term.pid 2, 43, false⟩],
            exit_reason := Term.atom 13 }
      = [Effect.message 2 (Term.tuple [DOWN_ATOM, Term.refTicks 41, PROCESS_ATOM,
            Term.pid 1, Term.atom 13]),
         Effect.message 2 (Term.tuple [DOWN_ATOM, Term.refTicks 43, PROCESS_ATOM,
            Term.pid 1, Term.atom 13])] := by
  have h := handle_terminate_peer_gone testProcsNoTrap
      { testCtx with
          monitors := [⟨Term.pid 2, 41, false⟩, ⟨Term.pid 9, 42, false⟩,
            ⟨Term.pid 2, 43, false⟩],
          exit_reason := Term.atom 13 }
      [⟨Term.pid 2, 41, false⟩] [⟨Term.pid 2, 43, false⟩] ⟨Term.pid 9, 42, false⟩ rfl rfl
  exact h.trans rfl

theorem usub64_eq_sub (a b : Nat) (hb : b <= a) (ha : a < 2 ^ 64) :
    usub64 a b = a - b := by
  unfold usub64
  omega

/-- C4: `context_get_process_info` returns true with the 2-tuple
`{key, value}` allocated on the context's heap for the keys
`heap_size` (heap words minus stack words), `stack_size` (stack words),
`message_queue_len` (mailbox length) and `memory`
(`sizeof(Context) + mailbox_size + heap_bytes`); false with the badarg
atom for every other key; and false with the OUT_OF_MEMORY atom,
leaving the context untouched, when the initial reservation fails. -/
theorem context_get_process_info_spec (plat : Platform) (ctx : Context) (atom_key : Term)
    (hstack : ctx.stack_size <= ctx.heap_size) (hsz : ctx.heap_size < 2 ^ 64) :
    (ctx.mem_ok = false →
      context_get_process_info plat ctx atom_key = (false, OUT_OF_MEMORY_ATOM, ctx))
    ∧ (ctx.mem_ok = true → atom_key = HEAP_SIZE_ATOM →
      context_get_process_info plat ctx atom_key
        = (true, Term.tuple [HEAP_SIZE_ATOM,
            term_from_int32 (ctx.heap_size - ctx.stack_size)], alloc_tuple_words 2 ctx))
    ∧ (ctx.mem_ok = true → atom_key = STACK_SIZE_ATOM →
      context_get_process_info plat ctx atom_key
        = (true, Term.tuple [STACK_SIZE_ATOM,
            term_from_int32 ctx.stack_size], alloc_tuple_words 2 ctx))
    ∧ (ctx.mem_ok = true → atom_key = MESSAGE_QUEUE_LEN_ATOM →
      context_get_process_info plat ctx atom_key
        = (true, Term.tuple [MESSAGE_QUEUE_LEN_ATOM,
            term_from_int32 ctx.mailbox.length], alloc_tuple_words 2 ctx))
    ∧ (ctx.mem_ok = true → atom_key = MEMORY_ATOM →
      context_get_process_info plat ctx atom_key
        = (true, Term.tuple [MEMORY_ATOM,
            term_from_int32 (plat.sizeof_Context + plat.mailbox_size_fn ctx.mailbox
              + ctx.heap_size * plat.bytes_per_term)], alloc_tuple_words 2 ctx))
    ∧ (ctx.mem_ok = true → isInfoKey atom_key = false →
      context_get_process_info plat ctx atom_key
        = (false, BADARG_ATOM, alloc_tuple_words 2 ctx)) := by
  refine ⟨fun hmem => ?_, fun hmem hk => ?_, fun hmem hk => ?_, fun hmem hk => ?_,
    fun hmem hk => ?_, fun hmem hk => ?_⟩
  · simp [context_get_process_info, memory_ensure_free, hmem]
  · subst hk
    simp [context_get_process_info, memory_ensure_free, hmem, Term.eqAtom,
      HEAP_SIZE_ATOM, memory_heap_memory_size, context_stack_size,
      alloc_tuple_words, usub64_eq_sub ctx.heap_size ctx.stack_size hstack hsz]
  · subst hk
    simp [context_get_process_info, memory_ensure_free, hmem, Term.eqAtom,
      STACK_SIZE_ATOM, HEAP_SIZE_ATOM, context_stack_size, alloc_tuple_words]
  · subst hk
    simp [context_get_process_info, memory_ensure_free, hmem, Term.eqAtom,
      MESSAGE_QUEUE_LEN_ATOM, HEAP_SIZE_ATOM, STACK_SIZE_ATOM,
      context_message_queue_len, alloc_tuple_words]
  · subst hk
    simp [context_get_process_info, memory_ensure_free, hmem, Term.eqAtom,
      MEMORY_ATOM, HEAP_SIZE_ATOM, STACK_SIZE_ATOM, MESSAGE_QUEUE_LEN_ATOM,
      context_size, memory_heap_memory_size, alloc_tuple_words]
  · have hk4 : ((Term.eqAtom atom_key HEAP_SIZE_ATOM = false
        ∧ Term.eqAtom atom_key STACK_SIZE_ATOM = false)
        ∧ Term.eqAtom atom_key MESSAGE_QUEUE_LEN_ATOM = false)
        ∧ Term.eqAtom atom_key MEMORY_ATOM = false := by
      simpa [isInfoKey] using hk
    simp [context_get_process_info, memory_ensure_free, hmem,
      hk4.1.1.1, hk4.1.1.2, hk4.1.2, hk4.2]

/-- C4 witness: on a context of heap size 16 words and stack size 4
words, the `heap_size` key yields `{heap_size, 12}` with the 2-tuple's
words taken from the heap. -/
theorem context_get_process_info_spec_witness :
    context_get_process_info testPlat testCtx HEAP_SIZE_ATOM
      = (true, Term.tuple [HEAP_SIZE_ATOM, term_from_int32 12],
          alloc_tuple_words 2 testCtx) := by
  have h := (context_get_process_info_spec testPlat testCtx HEAP_SIZE_ATOM
      (by decide) (by decide)).2.1 rfl rfl
  exact h.trans rfl

/-- C10: on an unrecognized key, `context_get_process_info` still
reserves heap space and allocates the 2-tuple before returning false
with the badarg atom, so the heap has grown by `TUPLE_SIZE(2)` words and
is not left unchanged; only the reservation-failure path leaves the
context untouched. -/
theorem context_get_process_info_badarg_heap (plat : Platform) (ctx : Context)
    (atom_key : Term) (hk : isInfoKey atom_key = false) :
    (ctx.mem_ok = true →
      context_get_process_info plat ctx atom_key
          = (false, BADARG_ATOM, alloc_tuple_words 2 ctx)
        ∧ (context_get_process_info plat ctx atom_key).2.2.heap_used
            = ctx.heap_used + TUPLE_SIZE 2
        ∧ (context_get_process_info plat ctx atom_key).2.2.heap_used ≠ ctx.heap_used)
    ∧ (ctx.mem_ok = false → (context_get_process_info plat ctx atom_key).2.2 = ctx) := by
  have hk4 : ((Term.eqAtom atom_key HEAP_SIZE_ATOM = false
      ∧ Term.eqAtom atom_key STACK_SIZE_ATOM = false)
      ∧ Term.eqAtom atom_key MESSAGE_QUEUE_LEN_ATOM = false)
      ∧ Term.eqAtom atom_key MEMORY_ATOM = false := by
    simpa [isInfoKey] using hk
  refine ⟨fun hmem => ?_, fun hmem => ?_⟩
  · refine ⟨?_, ?_, ?_⟩ <;>
      simp [context_get_process_info, memory_ensure_free, hmem,
        hk4.1.1.1, hk4.1.1.2, hk4.1.2, hk4.2, alloc_tuple_words, TUPLE_SIZE]
  · simp [context_get_process_info, memory_ensure_free, hmem]

/-- C10 witness: the unknown key `atom 13` on a context with free
memory yields badarg with the heap grown by 3 words. -/
theorem context_get_process_info_badarg_heap_witness :
    context_get_process_info testPlat testCtx (Term.atom 13)
        = (false, BADARG_ATOM, alloc_tuple_words 2 testCtx)
      ∧ (alloc_tuple_words 2 testCtx).heap_used ≠ testCtx.heap_used := by
  have h := (context_get_process_info_badarg_heap testPlat testCtx (Term.atom 13)
      (by decide)).1 rfl
  exact ⟨h.1, h.2.2⟩

end AtomVM
